import Mathlib

/-!
Verification of the OpenClaw RAG service core (src/rag-service/main.py).

The file shallowly embeds the pure core of the service: whitespace
tokenization and windowed chunking (`ChunkingStrategy.chunk_text`), chunk
preparation and identity construction (`ChunkingStrategy.prepare_chunks`),
the inclusion gate and content-hash deduplication
(`DeduplicationStrategy`), ingestion (`index_content`), the expiry sweep
(`cleanup_expired`), retention-policy updates (`set_retention_policy`) and
the search endpoint (`hybrid_search`).

Modelling conventions:
* Python `datetime` instants are abstract `Nat` time points; `timedelta(days=d)`
  is addition of `d` in those units.  `datetime.utcnow()` is passed in as an
  explicit `now` argument.
* The truncated SHA-256 content hash is an arbitrary function
  `hash : String → String` passed explicitly; every property proved here
  holds for every such function, in particular for the source's hash.
* Python dicts (`indexed_chunks`) are association lists in insertion order,
  with the Python-dict invariant that keys are distinct; `d[k] = v` replaces
  in place when the key exists and appends otherwise, `del d[k]` removes the
  unique entry.
* The Python set `DeduplicationStrategy.indexed_hashes` is a `List String`
  used only through membership and element insertion.
* Floats (scores) are modelled as rationals; the scores computed by the
  source are exact small fractions, so no rounding is involved.
* The `embedding` field of `DocumentChunk` is omitted: the source never
  assigns it (the embedding call is a TODO) and no claim mentions it.
  Likewise the background entity-extraction task is omitted: in the source
  `EntityExtractor.extract` returns empty lists, and no claim depends on it.
-/

/-- Python whitespace characters recognised by `str.split()` (ASCII range). -/
def pyWhitespace (c : Char) : Bool :=
  c = ' ' || c = '\t' || c = '\n' || c = '\r' || c = '\x0b' || c = '\x0c'

/-- Helper for `pySplit`: walk the character list, accumulating the current
(reversed) token; whitespace ends the current token, empty tokens are
dropped, exactly like Python `str.split()` with no arguments. -/
def splitAux : List Char → List Char → List (List Char)
  | [], acc => if acc.isEmpty then [] else [acc.reverse]
  | c :: rest, acc =>
    if pyWhitespace c then
      if acc.isEmpty then splitAux rest [] else acc.reverse :: splitAux rest []
    else
      splitAux rest (c :: acc)

/-- `text.split()` from `ChunkingStrategy.chunk_text`: the maximal runs of
non-whitespace characters of `text`, in order. -/
def pySplit (text : String) : List String :=
  (splitAux text.toList []).map (fun cs => String.mk cs)

/-- The `while i < len(words)` loop of `ChunkingStrategy.chunk_text`, with an
explicit fuel argument so that the non-terminating parameter regime is
representable: each iteration appends `" ".join(words[i:i+chunk_size])` and
advances `i` by `chunk_size - overlap`.  When `overlap ≥ chunk_size` the
Python index never advances past the end (the Python step is zero or
negative), so the loop runs forever; in the model the truncated `Nat` step
is `0` and the fuel runs out instead, for every fuel. -/
def chunkLoop (words : List String) (chunk_size overlap : Nat) :
    Nat → Nat → Option (List String)
  | _, 0 => none
  | i, fuel + 1 =>
    if i < words.length then
      (chunkLoop words chunk_size overlap (i + (chunk_size - overlap)) fuel).map
        (fun rest => String.intercalate " " ((words.drop i).take chunk_size) :: rest)
    else
      some []

/-- `ChunkingStrategy.chunk_text(text, chunk_size, overlap)`.  The fuel
`words.length + 1` is sufficient whenever `overlap < chunk_size` (the loop
advances by at least one word per iteration); in the non-terminating regime
the Python function never returns and the model falls back to `[]`
(see `chunkLoop` and the claim about invalid parameters). -/
def chunk_text (text : String) (chunk_size overlap : Nat) : List String :=
  let words := pySplit text
  (chunkLoop words chunk_size overlap 0 (words.length + 1)).getD []

/-- The retention policies of the `RetentionPolicy` enum. -/
inductive RetentionPolicy where
  | infinite
  | days_10
  | days_30
  | months_3
  | months_6
  | year_1
deriving DecidableEq, Repr

/-- The `RETENTION_DAYS` table: day count per policy, `none` for `infinite`. -/
def RETENTION_DAYS : RetentionPolicy → Option Nat
  | .infinite => none
  | .days_10 => some 10
  | .days_30 => some 30
  | .months_3 => some 90
  | .months_6 => some 180
  | .year_1 => some 365

/-- `ChunkMetadata` (the `embedding`-free part of the source model). -/
structure ChunkMetadata where
  chunk_id : String
  content_hash : String
  agent_id : String
  source_type : String
  source_id : String
  timestamp : Nat
  retention_policy : RetentionPolicy
  expires_at : Option Nat
deriving DecidableEq, Repr

/-- `DocumentChunk` without the never-assigned `embedding` field. -/
structure DocumentChunk where
  content : String
  metadata : ChunkMetadata
deriving DecidableEq, Repr

/-- The chunk identity string
`f"{agent_id}_{source_id}_{i}_{content_hash}"` from
`ChunkingStrategy.prepare_chunks`. -/
def chunkId (agent_id source_id : String) (i : Nat) (content_hash : String) : String :=
  agent_id ++ "_" ++ source_id ++ "_" ++ toString i ++ "_" ++ content_hash

/-- Expiry computation shared by `prepare_chunks` and `set_retention_policy`:
the source guards on `policy != RetentionPolicy.INFINITE` and then reads
`RETENTION_DAYS[policy]`, which is non-null exactly for the non-infinite
policies, so the guard is equivalent to matching on the table entry. -/
def applyExpiry (now : Nat) (policy : RetentionPolicy) : Option Nat :=
  match RETENTION_DAYS policy with
  | some days => some (now + days)
  | none => none

/-- `ChunkingStrategy.prepare_chunks`: chunk with the default parameters
(500, 50), then attach hash, identity and retention metadata per ordinal. -/
def prepare_chunks (hash : String → String) (now : Nat)
    (content agent_id source_type source_id : String)
    (retention_policy : RetentionPolicy) : List DocumentChunk :=
  let chunks := chunk_text content 500 50
  chunks.enum.map (fun p =>
    let content_hash := hash p.2
    { content := p.2,
      metadata := {
        chunk_id := chunkId agent_id source_id p.1 content_hash,
        content_hash := content_hash,
        agent_id := agent_id,
        source_type := source_type,
        source_id := source_id,
        timestamp := now,
        retention_policy := retention_policy,
        expires_at := applyExpiry now retention_policy } })

/-- `DeduplicationStrategy.should_index_to_rag`. -/
def should_index_to_rag (content : String) (source_type : String) : Bool :=
  if source_type = "document" || source_type = "conversation_complete" then
    true
  else if source_type = "system" then
    false
  else if 100 < content.length then
    true
  else
    false

/-- The mutable module-level state touched by ingestion: the
`indexed_chunks` dict and the `DeduplicationStrategy.indexed_hashes` set. -/
structure IngestState where
  indexed_chunks : List (String × DocumentChunk)
  indexed_hashes : List String
deriving DecidableEq, Repr

/-- Python dict assignment `d[k] = v`: replace in place if the key is
present, append otherwise. -/
def dictInsert : List (String × DocumentChunk) → String → DocumentChunk →
    List (String × DocumentChunk)
  | [], k, v => [(k, v)]
  | (k₁, v₁) :: rest, k, v =>
    if k₁ = k then (k, v) :: rest else (k₁, v₁) :: dictInsert rest k v

/-- `IndexRequest`. -/
structure IndexRequest where
  content : String
  agent_id : String
  source_type : String
  source_id : String
  extract_entities : Bool
  retention_policy : RetentionPolicy
deriving DecidableEq, Repr

/-- The response of the `/index` endpoint: either the inclusion-gate skip
response `{"status": "skipped", "reason": ...}` or the success response
`{"status": "success", "indexed": ..., "skipped": ..., "total_chunks": ...}`. -/
inductive IndexResponse where
  | skipped (reason : String)
  | success (indexed skipped total_chunks : Nat)
deriving DecidableEq, Repr

/-- The per-chunk loop of `index_content`: skip chunks whose content hash is
already in the dedup set (`DeduplicationStrategy.is_duplicate`), otherwise
store the chunk under its chunk id and mark the hash indexed
(`DeduplicationStrategy.mark_indexed`; the branch guarantees the hash is not
yet present, so set insertion is plain append). -/
def indexLoop : IngestState → Nat → Nat → List DocumentChunk → IngestState × Nat × Nat
  | st, indexed, skipped, [] => (st, indexed, skipped)
  | st, indexed, skipped, c :: rest =>
    if st.indexed_hashes.contains c.metadata.content_hash then
      indexLoop st indexed (skipped + 1) rest
    else
      indexLoop
        { indexed_chunks := dictInsert st.indexed_chunks c.metadata.chunk_id c,
          indexed_hashes := st.indexed_hashes ++ [c.metadata.content_hash] }
        (indexed + 1) skipped rest

/-- The `/index` endpoint `index_content`: apply the inclusion gate, prepare
the chunks, then run the dedup/store loop.  The background entity-extraction
task is omitted (it is a no-op in the source). -/
def index_content (hash : String → String) (now : Nat) (st : IngestState)
    (req : IndexRequest) : IngestState × IndexResponse :=
  if should_index_to_rag req.content req.source_type = false then
    (st, IndexResponse.skipped "content_type_excluded")
  else
    let chunks := prepare_chunks hash now req.content req.agent_id
      req.source_type req.source_id req.retention_policy
    let r := indexLoop st 0 0 chunks
    (r.1, IndexResponse.success r.2.1 r.2.2 chunks.length)

/-- The expiry test of `cleanup_expired`:
`chunk.metadata.expires_at and chunk.metadata.expires_at < now`
(a `datetime` is always truthy, so the first conjunct is a non-null test). -/
def isExpired (now : Nat) (c : DocumentChunk) : Bool :=
  match c.metadata.expires_at with
  | some e => decide (e < now)
  | none => false

/-- Python `del d[k]`: remove the (unique) entry with key `k`. -/
def dictDelete : List (String × DocumentChunk) → String → List (String × DocumentChunk)
  | [], _ => []
  | (k₁, v₁) :: rest, k =>
    if k₁ = k then rest else (k₁, v₁) :: dictDelete rest k

/-- The `/cleanup` endpoint `cleanup_expired`: collect the keys of the
chunks whose expiry is non-null and strictly before `now`, then delete each
collected key, counting the deletions. -/
def cleanup_expired (now : Nat) (store : List (String × DocumentChunk)) :
    List (String × DocumentChunk) × Nat :=
  let toRemove := (store.filter (fun p => isExpired now p.2)).map (fun p => p.1)
  (toRemove.foldl dictDelete store, toRemove.length)

/-- The per-chunk update of `set_retention_policy`: set the new policy and
recompute `expires_at` (`now + days` for a finite policy, cleared for
`infinite`). -/
def applyPolicy (now : Nat) (policy : RetentionPolicy) (c : DocumentChunk) :
    DocumentChunk :=
  { c with metadata := { c.metadata with
      retention_policy := policy,
      expires_at := applyExpiry now policy } }

/-- The chunk-updating loop of the `/retention/{agent_id}` endpoint
`set_retention_policy`: every chunk owned by `agent_id` is updated in place
and counted; other chunks are untouched.  (The endpoint also records the
policy in the `retention_settings` dict, which no claim reads.) -/
def set_retention_policy (now : Nat) (agent_id : String)
    (policy : RetentionPolicy) :
    List (String × DocumentChunk) → List (String × DocumentChunk) × Nat
  | [] => ([], 0)
  | (k, c) :: rest =>
    let r := set_retention_policy now agent_id policy rest
    if c.metadata.agent_id = agent_id then
      ((k, applyPolicy now policy c) :: r.1, r.2 + 1)
    else
      ((k, c) :: r.1, r.2)

/-- `SearchRequest` (scores as rationals). -/
structure SearchRequest where
  query : String
  agent_id : String
  include_shared : Bool
  search_type : String
  limit : Nat
  min_score : Rat
deriving DecidableEq, Repr

/-- `SearchResult`. -/
structure SearchResult where
  content : String
  score : Rat
  source_type : String
  source_id : String
  agent_id : String
  timestamp : Nat
  search_method : String
deriving DecidableEq, Repr

/-- Python `str.lower()`, character by character (the contents exercised
here are ASCII, where Python and Lean lowercasing agree). -/
def pyLower (s : String) : String := String.mk (s.toList.map Char.toLower)

/-- Python substring containment `needle in hay` over character lists:
some suffix of `hay` starts with `needle`. -/
def containsSubstrList : List Char → List Char → Bool
  | needle, [] => needle.isEmpty
  | needle, c :: rest => needle.isPrefixOf (c :: rest) || containsSubstrList needle rest

/-- Python substring containment on strings. -/
def containsSubstr (needle hay : String) : Bool :=
  containsSubstrList needle.toList hay.toList

/-- One step of Python's stable `list.sort(key=score, reverse=True)`:
insert `x` before the first element of strictly smaller score, so that
equal-score elements keep their original relative order. -/
def insertDesc (x : SearchResult) : List SearchResult → List SearchResult
  | [] => [x]
  | y :: ys => if y.score < x.score then x :: y :: ys else y :: insertDesc x ys

/-- Python's stable descending sort by score (`reverse=True`). -/
def sortDesc (l : List SearchResult) : List SearchResult :=
  l.foldl (fun acc x => insertDesc x acc) []

/-- The scoring of one chunk in `hybrid_search`: the number of query words
occurring as substrings of the lowercased content. -/
def matchCount (queryWords : List String) (contentLower : String) : Nat :=
  (queryWords.filter (fun w => containsSubstr w contentLower)).length

/-- The `/search` endpoint `hybrid_search`: filter by agent (plus the
`"shared"` namespace when requested), score each chunk as
`matches / len(query_words)` where `matches` counts query words contained in
the lowercased content, keep scores `≥ min_score`, sort descending by score
(stably) and truncate to `limit`.  Note the `search_type` field of the
request is never consulted and no clock is read. -/
def hybrid_search (store : List (String × DocumentChunk)) (req : SearchRequest) :
    List SearchResult :=
  let agent_filter := if req.include_shared then [req.agent_id, "shared"] else [req.agent_id]
  let query_words := pySplit (pyLower req.query)
  let results := store.foldl (fun acc p =>
    if agent_filter.contains p.2.metadata.agent_id = false then
      acc
    else
      let nMatches := matchCount query_words (pyLower p.2.content)
      if 0 < nMatches then
        let score : Rat := (nMatches : Int) / (query_words.length : Int)
        if req.min_score ≤ score then
          acc ++ [{ content := p.2.content,
                    score := score,
                    source_type := p.2.metadata.source_type,
                    source_id := p.2.metadata.source_id,
                    agent_id := p.2.metadata.agent_id,
                    timestamp := p.2.metadata.timestamp,
                    search_method := "bm25" }]
        else acc
      else acc) []
  (sortDesc results).take req.limit

/-- A concrete stand-in content hash used to instantiate scenarios; every
general theorem in this file is proved for an arbitrary hash function. -/
def exHash : String → String := fun s => s

/-- The initial module-level state: empty `indexed_chunks`, empty dedup set. -/
def st0 : IngestState := { indexed_chunks := [], indexed_hashes := [] }

/-- Ingest request used in the expiry-resurrection scenario: a short
document with 10-day retention. -/
def reqC5 : IndexRequest :=
  { content := "a b", agent_id := "x", source_type := "document", source_id := "s",
    extract_entities := true, retention_policy := RetentionPolicy.days_10 }

/-- State after ingesting `reqC5` at time 0. -/
def st1C5 : IngestState := (index_content exHash 0 st0 reqC5).1

/-- State after the expiry sweep at time 20: the `/cleanup` endpoint rewrites
only `indexed_chunks`; the dedup set is module-level state it never touches. -/
def st2C5 : IngestState :=
  { indexed_chunks := (cleanup_expired 20 st1C5.indexed_chunks).1,
    indexed_hashes := st1C5.indexed_hashes }

/-- First request of the identity-collision scenario: agent `a`, source `b_c`. -/
def reqX1 : IndexRequest :=
  { content := "t", agent_id := "a", source_type := "document", source_id := "b_c",
    extract_entities := true, retention_policy := RetentionPolicy.infinite }

/-- Second request of the identity-collision scenario: agent `a_b`, source `c`,
byte-identical content. -/
def reqX2 : IndexRequest :=
  { content := "t", agent_id := "a_b", source_type := "document", source_id := "c",
    extract_entities := true, retention_policy := RetentionPolicy.infinite }

/-- The chunk stored by ingesting `reqX1` at time 0 with the stand-in hash. -/
def chunkX1 : DocumentChunk :=
  { content := "t",
    metadata := { chunk_id := "a_b_c_0_t", content_hash := "t", agent_id := "a",
                  source_type := "document", source_id := "b_c", timestamp := 0,
                  retention_policy := RetentionPolicy.infinite, expires_at := none } }

/-- A stored chunk without expiry whose content is `"hello world"`. -/
def chunkC1 : DocumentChunk :=
  { content := "hello world",
    metadata := { chunk_id := "a_s_0_h", content_hash := "h", agent_id := "a",
                  source_type := "document", source_id := "s", timestamp := 0,
                  retention_policy := RetentionPolicy.infinite, expires_at := none } }

/-- A one-chunk store for the scoring scenario. -/
def storeC1 : List (String × DocumentChunk) := [("a_s_0_h", chunkC1)]

/-- Hybrid-mode search request whose query is two words, one matching. -/
def reqS1 : SearchRequest :=
  { query := "hello xyz", agent_id := "a", include_shared := true,
    search_type := "hybrid", limit := 10, min_score := 1/2 }

/-- A stored chunk whose expiry instant 0 lies in the past for every
positive query time. -/
def chunkC2 : DocumentChunk :=
  { content := "hello world",
    metadata := { chunk_id := "a_s_0_h2", content_hash := "h2", agent_id := "a",
                  source_type := "document", source_id := "s", timestamp := 0,
                  retention_policy := RetentionPolicy.days_10, expires_at := some 0 } }

/-- A one-chunk store holding only the expired chunk. -/
def storeC2 : List (String × DocumentChunk) := [("a_s_0_h2", chunkC2)]

/-- Hybrid-mode search request matching the expired chunk. -/
def reqS2 : SearchRequest :=
  { query := "hello", agent_id := "a", include_shared := true,
    search_type := "hybrid", limit := 10, min_score := 1/2 }

/-- A stored chunk whose expiry instant is exactly 5. -/
def chunkC3 : DocumentChunk :=
  { content := "x",
    metadata := { chunk_id := "a_s_0_x", content_hash := "hx", agent_id := "a",
                  source_type := "document", source_id := "s", timestamp := 0,
                  retention_policy := RetentionPolicy.days_10, expires_at := some 5 } }

/-- A one-chunk store for the sweep boundary scenario. -/
def storeC3 : List (String × DocumentChunk) := [("a_s_0_x", chunkC3)]

/-- The chunk stored by ingesting `reqX1` with an arbitrary hash function
whose value on `"t"` is `h`. -/
def chunkX (h : String) : DocumentChunk :=
  { content := "t",
    metadata := { chunk_id := chunkId "a" "b_c" 0 h, content_hash := h, agent_id := "a",
                  source_type := "document", source_id := "b_c", timestamp := 0,
                  retention_policy := RetentionPolicy.infinite, expires_at := none } }

/-- A short `system` request, rejected by the inclusion gate. -/
def reqSys : IndexRequest :=
  { content := "short", agent_id := "a", source_type := "system", source_id := "s",
    extract_entities := true, retention_policy := RetentionPolicy.infinite }

/-- Each reciprocal-rank term `1/(60+r)` with `r ≥ 1` is at most `1/61`, so a
sum of at most `length` such terms is bounded by `length * (1/61)`. -/
theorem rrf_term_sum_le (l : List Nat) (h : ∀ r ∈ l, 1 ≤ r) :
    (l.map (fun (r : Nat) => (1 : Rat) / (60 + (r : Rat)))).sum ≤ (l.length : Rat) * (1 / 61) := by
  induction l with
  | nil => simp
  | cons a t ih =>
    have ha : 1 ≤ a := h a (by simp)
    have hterm : (1 : Rat) / (60 + (a : Rat)) ≤ 1 / 61 := by
      apply one_div_le_one_div_of_le
      · norm_num
      · have : (1 : Rat) ≤ (a : Rat) := by exact_mod_cast ha
        linarith
    have htail := ih (fun r hr => h r (by simp [hr]))
    simp only [List.map_cons, List.sum_cons, List.length_cons, Nat.cast_succ]
    linarith

/-- C1: the claim says every candidate returned by a hybrid-mode search is
scored by Reciprocal Rank Fusion, a sum of terms `1/(k+r)` with `k = 60` and
`r` a 1-based backend rank.  The code does no fusion at all: on the store
`storeC1` and hybrid request `reqS1` (two query words, one matching) it
returns the matched-word fraction `1/2`, which is not a sum of at most
three (vector, bm25, graph) reciprocal-rank terms, since each such term is
at most `1/61`. -/
theorem claim_C1_rrf_code_bug :
    hybrid_search storeC1 reqS1
      = [{ content := "hello world", score := 1/2, source_type := "document",
           source_id := "s", agent_id := "a", timestamp := 0, search_method := "bm25" }]
    ∧ ∀ contribs : List Nat, contribs.length ≤ 3 → (∀ r ∈ contribs, 1 ≤ r) →
        (contribs.map (fun (r : Nat) => (1 : Rat) / (60 + (r : Rat)))).sum ≠ 1/2 := by
  constructor
  · have h1 : pySplit (pyLower "hello xyz") = ["hello", "xyz"] := by decide
    have h2 : matchCount ["hello", "xyz"] (pyLower "hello world") = 1 := by decide
    norm_num [hybrid_search, storeC1, reqS1, chunkC1, h1, h2, sortDesc, insertDesc]
  · intro contribs hlen hranks hsum
    have hb := rrf_term_sum_le contribs hranks
    have hl : (contribs.length : Rat) ≤ 3 := by exact_mod_cast hlen
    have : (contribs.length : Rat) * (1 / 61) ≤ 3 * (1 / 61) := by
      have h61 : (0 : Rat) ≤ 1 / 61 := by norm_num
      exact mul_le_mul_of_nonneg_right hl h61
    rw [hsum] at hb
    linarith

/-- C1 witness: the bundled universal conjunct applied at the singleton rank
list `[1]`. -/
theorem claim_C1_rrf_code_bug_witness :
    hybrid_search storeC1 reqS1
      = [{ content := "hello world", score := 1/2, source_type := "document",
           source_id := "s", agent_id := "a", timestamp := 0, search_method := "bm25" }]
    ∧ (([1] : List Nat).map (fun (r : Nat) => (1 : Rat) / (60 + (r : Rat)))).sum ≠ 1/2 :=
  ⟨claim_C1_rrf_code_bug.1,
   claim_C1_rrf_code_bug.2 [1] (by norm_num) (by simp)⟩

/-- C2: the claim says a chunk whose `expires_at` has passed never appears in
search results even before a sweep removes it.  The query path of the code
never reads `expires_at` (nor any clock): the store `storeC2` holds a chunk
that expired at instant 0, yet the search returns it, at every later query
time. -/
theorem claim_C2_expiry_code_bug :
    chunkC2.metadata.expires_at = some 0
    ∧ (0 : Nat) < 1
    ∧ hybrid_search storeC2 reqS2
        = [{ content := "hello world", score := 1, source_type := "document",
             source_id := "s", agent_id := "a", timestamp := 0, search_method := "bm25" }] := by
  refine ⟨by decide, by decide, ?_⟩
  have h1 : pySplit (pyLower "hello") = ["hello"] := by decide
  have h2 : matchCount ["hello"] (pyLower "hello world") = 1 := by decide
  norm_num [hybrid_search, storeC2, reqS2, chunkC2, h1, h2, sortDesc, insertDesc]

/-- C3 counterexample: the claim says the sweep removes every chunk with
`expires_at ≤ now`.  On the store whose only chunk expires exactly at
instant 5, sweeping at `now = 5` removes nothing and reports 0, although
`5 ≤ 5`. -/
theorem claim_C3_counterexample :
    cleanup_expired 5 storeC3 = (storeC3, 0)
    ∧ chunkC3.metadata.expires_at = some 5
    ∧ (5 : Nat) ≤ 5 := by
  decide

/-- When the step `chunk_size - overlap` is zero and the index is inside the
word list, the chunking loop never terminates, whatever the fuel. -/
theorem chunkLoop_stuck (words : List String) (chunk_size overlap i : Nat)
    (hstep : chunk_size - overlap = 0) (hi : i < words.length) :
    ∀ fuel, chunkLoop words chunk_size overlap i fuel = none := by
  intro fuel
  induction fuel with
  | zero => rfl
  | succ n ih => simp [chunkLoop, hi, hstep, ih]

/-- C4: the claim says `chunk_text` rejects `overlap ≥ window_size` with a
`ConfigurationError` before doing any work.  No such check exists in the
code: on the two-token text `"a b"` with `window_size = overlap = 1` the
loop index never advances past the end, so the loop (here fuel-indexed)
never finishes for any amount of fuel — the Python call hangs instead of
raising; and on empty text it silently returns `[]` instead of raising. -/
theorem claim_C4_no_config_error :
    (∀ fuel, chunkLoop (pySplit "a b") 1 1 0 fuel = none)
    ∧ chunk_text "" 1 1 = [] := by
  constructor
  · exact chunkLoop_stuck _ 1 1 0 (by decide) (by decide)
  · decide

/-- C5: the claim says content re-ingested after its chunks were removed by
an expiry sweep is treated as new.  In the code the dedup hash set is never
pruned by the sweep: ingesting `"a b"` as a 10-day document at time 0,
sweeping at time 20 (which removes its only chunk), then re-ingesting the
identical request reports every chunk skipped as a duplicate
(`indexed = 0`, `skipped = total = 1`) and stores nothing. -/
theorem claim_C5_resurrection_code_bug :
    index_content exHash 0 st0 reqC5 = (st1C5, IndexResponse.success 1 0 1)
    ∧ (cleanup_expired 20 st1C5.indexed_chunks).2 = 1
    ∧ index_content exHash 20 st2C5 reqC5
        = ({ indexed_chunks := [], indexed_hashes := ["a b"] },
           IndexResponse.success 0 1 1) := by
  decide

/-- C10 counterexample: the claim says the underscore-joined chunk identity
is not injective (true: agent `a` with source `b_c` collides with agent
`a_b` with source `c`) and that indexing the second tuple silently
overwrites the first agent's stored chunk.  The second half is false: the
colliding content hash is already in the dedup set, so the second ingest is
skipped wholesale — the store is unchanged, still owned by agent `a`, and
the second call reports `indexed = 0`. -/
theorem claim_C10_counterexample :
    chunkId "a" "b_c" 0 "t" = chunkId "a_b" "c" 0 "t"
    ∧ (index_content exHash 0 st0 reqX1).1.indexed_chunks
        = [(chunkId "a" "b_c" 0 "t", chunkX1)]
    ∧ chunkX1.metadata.agent_id = "a"
    ∧ index_content exHash 0 (index_content exHash 0 st0 reqX1).1 reqX2
        = ((index_content exHash 0 st0 reqX1).1, IndexResponse.success 0 1 1) := by
  decide

/-- C6: setting an agent's retention policy updates exactly that agent's
chunks — each such chunk gets the new policy and its `expires_at` recomputed
(`now + days` for a finite policy, cleared for `infinite`, per the
`RETENTION_DAYS` table), chunks of other agents and all keys and contents
are untouched, and the returned count is the number of the agent's chunks. -/
theorem claim_C6_retention_update (now : Nat) (agent_id : String)
    (policy : RetentionPolicy) (store : List (String × DocumentChunk)) :
    (set_retention_policy now agent_id policy store).1
        = store.map (fun p => if p.2.metadata.agent_id = agent_id
            then (p.1, applyPolicy now policy p.2) else p)
    ∧ (set_retention_policy now agent_id policy store).2
        = (store.filter (fun p => p.2.metadata.agent_id = agent_id)).length
    ∧ (∀ c : DocumentChunk,
          (applyPolicy now policy c).metadata.expires_at
              = (RETENTION_DAYS policy).map (fun days => now + days)
          ∧ (applyPolicy now policy c).metadata.agent_id = c.metadata.agent_id
          ∧ (applyPolicy now policy c).metadata.retention_policy = policy
          ∧ (applyPolicy now policy c).content = c.content) := by
  refine ⟨?_, ?_, ?_⟩
  · induction store with
    | nil => rfl
    | cons p rest ih =>
      by_cases hp : p.2.metadata.agent_id = agent_id <;>
        simp [set_retention_policy, hp, ih]
  · induction store with
    | nil => rfl
    | cons p rest ih =>
      by_cases hp : p.2.metadata.agent_id = agent_id <;>
        simp [set_retention_policy, List.filter, hp, ih]
  · intro c
    refine ⟨?_, rfl, rfl, rfl⟩
    cases hpol : RETENTION_DAYS policy <;>
      simp [applyPolicy, applyExpiry, hpol]

/-- C7: content is accepted by the inclusion gate iff its source type is
`document` or `conversation_complete`, or it is not `system` and the content
exceeds 100 characters (`system` is thus always rejected, whatever the
length); a rejected request returns `skipped`/`content_type_excluded` and
leaves the store and dedup state unchanged. -/
theorem claim_C7_inclusion_gate (hash : String → String) (now : Nat)
    (st : IngestState) (req : IndexRequest) :
    (should_index_to_rag req.content req.source_type = true
        ↔ (req.source_type = "document" ∨ req.source_type = "conversation_complete"
            ∨ (req.source_type ≠ "system" ∧ 100 < req.content.length)))
    ∧ (should_index_to_rag req.content req.source_type = false →
        index_content hash now st req = (st, IndexResponse.skipped "content_type_excluded")) := by
  constructor
  · by_cases h1 : req.source_type = "document" <;>
      by_cases h2 : req.source_type = "conversation_complete" <;>
      by_cases h3 : req.source_type = "system" <;>
      by_cases h4 : 100 < req.content.length <;>
      simp [should_index_to_rag, h1, h2, h3, h4]
  · intro hgate
    simp [index_content, hgate]

/-- C7 witness: the gate characterisation and the rejection response at the
concrete `system` request. -/
theorem claim_C7_inclusion_gate_witness :
    (should_index_to_rag reqSys.content reqSys.source_type = true
        ↔ (reqSys.source_type = "document" ∨ reqSys.source_type = "conversation_complete"
            ∨ (reqSys.source_type ≠ "system" ∧ 100 < reqSys.content.length)))
    ∧ index_content exHash 0 st0 reqSys = (st0, IndexResponse.skipped "content_type_excluded") :=
  ⟨(claim_C7_inclusion_gate exHash 0 st0 reqSys).1,
   (claim_C7_inclusion_gate exHash 0 st0 reqSys).2 (by decide)⟩

/-- Hashes already in the dedup set survive the ingestion loop. -/
theorem indexLoop_hashes_mono (chunks : List DocumentChunk) :
    ∀ (st : IngestState) (indexed skipped : Nat) (h : String),
      h ∈ st.indexed_hashes →
      h ∈ (indexLoop st indexed skipped chunks).1.indexed_hashes := by
  induction chunks with
  | nil => intro st i s h hmem; simpa [indexLoop] using hmem
  | cons c rest ih =>
    intro st i s h hmem
    by_cases hc : c.metadata.content_hash ∈ st.indexed_hashes
    · simpa [indexLoop, hc] using ih _ _ _ _ hmem
    · simpa [indexLoop, hc] using ih _ _ _ _
        (show h ∈ st.indexed_hashes ++ [c.metadata.content_hash] by simp [hmem])

/-- After the ingestion loop, the content hash of every processed chunk is
in the dedup set (whether it was stored or skipped). -/
theorem indexLoop_hashes_cover (chunks : List DocumentChunk) :
    ∀ (st : IngestState) (indexed skipped : Nat) (c : DocumentChunk),
      c ∈ chunks →
      c.metadata.content_hash ∈ (indexLoop st indexed skipped chunks).1.indexed_hashes := by
  induction chunks with
  | nil => intro st i s c hc; simp at hc
  | cons c₀ rest ih =>
    intro st i s c hc
    rcases List.mem_cons.1 hc with hc | hc
    · subst hc
      by_cases hdup : c.metadata.content_hash ∈ st.indexed_hashes
      · simpa [indexLoop, hdup] using indexLoop_hashes_mono rest _ _ _ _ hdup
      · simpa [indexLoop, hdup] using
          indexLoop_hashes_mono rest _ _ _ _
            (show c.metadata.content_hash ∈ st.indexed_hashes ++ [c.metadata.content_hash] by simp)
    · by_cases hdup : c₀.metadata.content_hash ∈ st.indexed_hashes <;>
        simpa [indexLoop, hdup] using ih _ _ _ _ hc

/-- When every chunk's hash is already in the dedup set, the ingestion loop
changes nothing and skips every chunk. -/
theorem indexLoop_all_dup (chunks : List DocumentChunk) :
    ∀ (st : IngestState) (indexed skipped : Nat),
      (∀ c ∈ chunks, c.metadata.content_hash ∈ st.indexed_hashes) →
      indexLoop st indexed skipped chunks = (st, indexed, skipped + chunks.length) := by
  induction chunks with
  | nil => intro st i s h₀; simp [indexLoop]
  | cons c rest ih =>
    intro st i s hall
    have hc : st.indexed_hashes.contains c.metadata.content_hash = true := by
      simp [List.contains, List.elem_iff, hall c (by simp)]
    rw [indexLoop, if_pos hc, ih _ _ _ (fun d hd => hall d (by simp [hd]))]
    simp [Nat.add_assoc, Nat.add_comm 1]

/-- The content hashes of the prepared chunks are the hashes of the text
windows, independently of the ingestion time. -/
theorem prepare_chunks_hashes (hash : String → String) (now : Nat)
    (content agent_id source_type source_id : String) (rp : RetentionPolicy) :
    (prepare_chunks hash now content agent_id source_type source_id rp).map
        (fun c => c.metadata.content_hash)
      = (chunk_text content 500 50).map hash := by
  simp only [prepare_chunks, List.map_map]
  have hcomp : ((fun c : DocumentChunk => c.metadata.content_hash) ∘
      (fun p : Nat × String =>
        ({ content := p.2,
           metadata := { chunk_id := chunkId agent_id source_id p.1 (hash p.2),
                         content_hash := hash p.2, agent_id := agent_id,
                         source_type := source_type, source_id := source_id,
                         timestamp := now, retention_policy := rp,
                         expires_at := applyExpiry now rp } } : DocumentChunk)))
      = (hash ∘ Prod.snd) := rfl
  rw [hcomp, ← List.map_map, List.enum_map_snd]

/-- One prepared chunk per text window. -/
theorem prepare_chunks_length (hash : String → String) (now : Nat)
    (content agent_id source_type source_id : String) (rp : RetentionPolicy) :
    (prepare_chunks hash now content agent_id source_type source_id rp).length
      = (chunk_text content 500 50).length := by
  simp [prepare_chunks, List.enum_length]

/-- C8: ingesting the same request twice in succession (same content, agent
and source, no intervening removal) reports, on the second call, zero
indexed chunks and every chunk skipped (`skipped = total_chunks`), for every
hash function, ingestion times and starting state, whenever the content
passes the inclusion gate. -/
theorem claim_C8_reingest_skipped (hash : String → String) (now₁ now₂ : Nat)
    (st : IngestState) (req : IndexRequest)
    (hgate : should_index_to_rag req.content req.source_type = true) :
    (index_content hash now₂ (index_content hash now₁ st req).1 req).2
      = IndexResponse.success 0 (chunk_text req.content 500 50).length
          (chunk_text req.content 500 50).length := by
  have hgate' : ¬ (should_index_to_rag req.content req.source_type = false) := by
    simp [hgate]
  simp only [index_content, if_neg hgate']
  set chunks₁ := prepare_chunks hash now₁ req.content req.agent_id req.source_type
    req.source_id req.retention_policy with hchunks₁
  set chunks₂ := prepare_chunks hash now₂ req.content req.agent_id req.source_type
    req.source_id req.retention_policy with hchunks₂
  set st₁ := (indexLoop st 0 0 chunks₁).1 with hst₁
  have hall : ∀ c ∈ chunks₂, c.metadata.content_hash ∈ st₁.indexed_hashes := by
    intro c hc
    have hmemmap : c.metadata.content_hash ∈ chunks₂.map (fun c => c.metadata.content_hash) :=
      List.mem_map.2 ⟨c, hc, rfl⟩
    rw [prepare_chunks_hashes, ← prepare_chunks_hashes hash now₁ req.content req.agent_id
      req.source_type req.source_id req.retention_policy] at hmemmap
    rcases List.mem_map.1 hmemmap with ⟨c₁, hc₁, hh⟩
    rw [← hh]
    exact indexLoop_hashes_cover chunks₁ st 0 0 c₁ hc₁
  rw [indexLoop_all_dup chunks₂ st₁ 0 0 hall]
  simp only [Nat.zero_add]
  rw [hchunks₂]
  rw [prepare_chunks_length]

/-- C8 witness: re-ingesting the one-chunk document `reqC5` reports
`indexed = 0` and `skipped = total_chunks`. -/
theorem claim_C8_reingest_skipped_witness :
    should_index_to_rag reqC5.content reqC5.source_type = true
    ∧ (index_content exHash 0 (index_content exHash 0 st0 reqC5).1 reqC5).2
        = IndexResponse.success 0 (chunk_text reqC5.content 500 50).length
            (chunk_text reqC5.content 500 50).length :=
  ⟨by decide, claim_C8_reingest_skipped exHash 0 0 st0 reqC5 (by decide)⟩

/-- C10 (amended): the underscore-joined chunk identity is indeed not
injective — agent `a` with source `b_c` and agent `a_b` with source `c`
yield the same `chunk_id` for every ordinal and hash — but indexing the
second tuple does not overwrite the first agent's chunk: because the
colliding content hash is already in the process-wide dedup set, the second
ingest skips all its chunks, leaves the store unchanged and reports
`indexed = 0`; the second agent's content is silently never stored.  Proved
for every hash function. -/
theorem claim_C10_collision_no_overwrite (hash : String → String) :
    (∀ (i : Nat) (h : String), chunkId "a" "b_c" i h = chunkId "a_b" "c" i h)
    ∧ index_content hash 0 (index_content hash 0 st0 reqX1).1 reqX2
        = ((index_content hash 0 st0 reqX1).1, IndexResponse.success 0 1 1) := by
  constructor
  · intro i h
    unfold chunkId
    rw [show ("a" ++ "_" ++ "b_c" ++ "_" : String) = "a_b" ++ "_" ++ "c" ++ "_" from rfl]
  · have h1 : index_content hash 0 st0 reqX1
        = ({ indexed_chunks := [(chunkId "a" "b_c" 0 (hash "t"), chunkX (hash "t"))],
             indexed_hashes := [hash "t"] }, IndexResponse.success 1 0 1) := rfl
    have h2 : prepare_chunks hash 0 "t" "a_b" "document" "c" RetentionPolicy.infinite
        = [{ content := "t",
             metadata := { chunk_id := chunkId "a_b" "c" 0 (hash "t"), content_hash := hash "t",
                           agent_id := "a_b", source_type := "document", source_id := "c",
                           timestamp := 0, retention_policy := RetentionPolicy.infinite,
                           expires_at := none } }] := rfl
    have hps : pySplit "t" = ["t"] := by decide
    have hic : String.intercalate " " ["t"] = "t" := rfl
    rw [h1]
    simp only [index_content, reqX2, h2, indexLoop]
    simp [indexLoop, hps, hic, dictInsert, applyExpiry, RETENTION_DAYS]
    decide

/-- Deleting key `k` from a dict with distinct keys is the same as filtering
out the entries with key `k`. -/
theorem dictDelete_nodup (k : String) :
    ∀ (store : List (String × DocumentChunk)),
      (store.map Prod.fst).Nodup →
      dictDelete store k = store.filter (fun p => decide (p.1 ≠ k)) := by
  intro store
  induction store with
  | nil => intro h₀; rfl
  | cons p rest ih =>
    intro hnd
    rw [List.map_cons, List.nodup_cons] at hnd
    obtain ⟨hhead, htail⟩ := hnd
    obtain ⟨k₁, v₁⟩ := p
    by_cases hk : k₁ = k
    · subst hk
      have hrest : rest.filter (fun q => !decide (q.1 = k₁)) = rest := by
        apply List.filter_eq_self.2
        intro q hq
        simp only [Bool.not_eq_true', decide_eq_false_iff_not]
        intro hqk
        exact hhead (by rw [← hqk]; exact List.mem_map.2 ⟨q, hq, rfl⟩)
      simp [dictDelete, List.filter, hrest]
    · simp [dictDelete, hk, List.filter, ih htail]

/-- Folding deletions of a key list over a dict with distinct keys filters
out exactly the entries whose key is in the list. -/
theorem foldl_dictDelete_filter :
    ∀ (keys : List String) (store : List (String × DocumentChunk)),
      (store.map Prod.fst).Nodup →
      keys.foldl dictDelete store = store.filter (fun p => decide (p.1 ∉ keys)) := by
  intro keys
  induction keys with
  | nil => intro store h₀; simp
  | cons k ks ih =>
    intro store hnd
    have h1 : dictDelete store k = store.filter (fun p => decide (p.1 ≠ k)) :=
      dictDelete_nodup k store hnd
    have hnd2 : ((store.filter (fun p => decide (p.1 ≠ k))).map Prod.fst).Nodup :=
      ((List.filter_sublist store).map Prod.fst).nodup hnd
    have hstep : (k :: ks).foldl dictDelete store = ks.foldl dictDelete (dictDelete store k) := rfl
    rw [hstep, h1, ih _ hnd2, List.filter_filter]
    apply List.filter_congr
    intro p hp
    simp [List.mem_cons, not_or, Bool.and_comm]

/-- C3 (amended): on a store with distinct keys (the Python-dict invariant),
the sweep at `now` removes exactly the chunks whose `expires_at` is non-null
and strictly less than `now` — not ≤ as claimed — keeps every other chunk,
and returns the number of removed chunks. -/
theorem claim_C3_sweep_strict (now : Nat) (store : List (String × DocumentChunk))
    (hkeys : (store.map Prod.fst).Nodup) :
    (cleanup_expired now store).1 = store.filter (fun p => !isExpired now p.2)
    ∧ (cleanup_expired now store).2 = (store.filter (fun p => isExpired now p.2)).length := by
  constructor
  · show ((store.filter (fun p => isExpired now p.2)).map (fun p => p.1)).foldl
        dictDelete store = _
    rw [foldl_dictDelete_filter _ store hkeys]
    apply List.filter_congr
    intro p hp
    by_cases hexp : isExpired now p.2 = true
    · have hmem : p.1 ∈ (store.filter (fun q => isExpired now q.2)).map (fun q => q.1) :=
        List.mem_map.2 ⟨p, List.mem_filter.2 ⟨hp, hexp⟩, rfl⟩
      simp [hexp, hmem]
    · have hnmem : p.1 ∉ (store.filter (fun q => isExpired now q.2)).map (fun q => q.1) := by
        intro hmem
        rcases List.mem_map.1 hmem with ⟨q, hq, hq1⟩
        rcases List.mem_filter.1 hq with ⟨hqstore, hqexp⟩
        have hqp : q = p := List.inj_on_of_nodup_map hkeys hqstore hp hq1
        rw [hqp] at hqexp
        exact hexp hqexp
      simp [hexp, hnmem]
  · simp [cleanup_expired]

/-- C3 witness: the sweep characterisation at `now = 6` on the store whose
only chunk expires at 5 (removed, count 1). -/
theorem claim_C3_sweep_strict_witness :
    (storeC3.map Prod.fst).Nodup
    ∧ ((cleanup_expired 6 storeC3).1 = storeC3.filter (fun p => !isExpired 6 p.2)
       ∧ (cleanup_expired 6 storeC3).2 = (storeC3.filter (fun p => isExpired 6 p.2)).length) :=
  ⟨by decide, claim_C3_sweep_strict 6 storeC3 (by decide)⟩

/-- Closed form of the chunking loop when the step `chunk_size - overlap` is
positive: starting at index `i` with enough fuel, it returns one window per
start `i + k * step` below the word count, each window being the
space-join of `words[start : start + chunk_size]`, and the starts exhaust
the words. -/
theorem chunkLoop_closed (words : List String) (size ov : Nat) :
    ∀ (fuel : Nat), ∀ (i : Nat), words.length ≤ i + (size - ov) * fuel →
      ∃ N, chunkLoop words size ov i (fuel + 1)
          = some ((List.range N).map
              (fun k => String.intercalate " " ((words.drop (i + k * (size - ov))).take size)))
        ∧ (∀ k, k < N → i + k * (size - ov) < words.length)
        ∧ words.length ≤ i + N * (size - ov) := by
  intro fuel
  induction fuel with
  | zero =>
    intro i hle
    simp only [Nat.mul_zero, Nat.add_zero] at hle
    refine ⟨0, ?_, ?_, ?_⟩
    · simp [chunkLoop, Nat.not_lt.2 hle]
    · intro k hk; exact absurd hk (Nat.not_lt_zero k)
    · simpa using hle
  | succ fuel ih =>
    intro i hle
    by_cases hi : i < words.length
    · have hle' : words.length ≤ (i + (size - ov)) + (size - ov) * fuel := by
        rw [Nat.mul_succ] at hle
        omega
      obtain ⟨N, hEq, hlt, hge⟩ := ih (i + (size - ov)) hle'
      have hfun : ∀ k : Nat, (i + (size - ov)) + k * (size - ov) = i + (k + 1) * (size - ov) := by
        intro k
        rw [Nat.succ_mul]
        omega
      refine ⟨N + 1, ?_, ?_, ?_⟩
      · show (if i < words.length then
            (chunkLoop words size ov (i + (size - ov)) (fuel + 1)).map
              (fun rest => String.intercalate " " ((words.drop i).take size) :: rest)
          else some []) = _
        rw [if_pos hi, hEq, Option.map_some']
        congr 1
        rw [List.range_succ_eq_map, List.map_cons, List.map_map]
        congr 1
        · simp
        · apply List.map_congr_left
          intro k hk
          simp [Function.comp, hfun k]
      · intro k hk
        cases k with
        | zero => simpa using hi
        | succ j =>
          rw [← hfun j]
          exact hlt j (by omega)
      · rw [Nat.succ_mul]
        omega
    · refine ⟨0, ?_, ?_, ?_⟩
      · simp [chunkLoop, hi]
      · intro k hk; exact absurd hk (Nat.not_lt_zero k)
      · simp only [Nat.zero_mul, Nat.add_zero]
        omega

/-- The tail of a window beyond the step equals the head of the next window
truncated to `overlap` tokens. -/
theorem window_overlap (l : List String) (size ov : Nat) (hov : ov ≤ size) (a : Nat) :
    ((l.drop a).take size).drop (size - ov)
      = ((l.drop (a + (size - ov))).take size).take ov := by
  rw [List.drop_take, List.drop_drop, List.take_take]
  rw [Nat.sub_sub_self hov, min_eq_left hov]

/-- For a full window (one ending within the word list) the shared tail has
exactly `overlap` tokens. -/
theorem window_overlap_length (l : List String) (size ov a : Nat)
    (hfull : a + size ≤ l.length) :
    (((l.drop a).take size).drop (size - ov)).length = ov ⊓ size := by
  simp only [List.length_drop, List.length_take, List.length_drop]
  omega

/-- C9 counterexample: the claim says only the final window may be shorter
than `window_size` and every adjacent pair shares exactly `overlap` tokens
except at the final short window.  With 4 tokens, `window_size = 3` and
`overlap = 2` the code produces two trailing short windows: the third of
four windows (`"c d"`) has 2 < 3 tokens although it is not final, and it
shares only 1 token with its successor `"d"`. -/
theorem claim_C9_counterexample :
    chunk_text "a b c d" 3 2 = ["a b c", "b c d", "c d", "d"]
    ∧ (chunk_text "a b c d" 3 2).length = 4
    ∧ (pySplit ((chunk_text "a b c d" 3 2).getD 2 "")).length = 2
    ∧ 2 < 3 := by
  decide

/-- C9 (amended): for `overlap < window_size`, chunking tokenizes the text
into maximal non-whitespace runs and returns the space-joined windows
`words[k*step : k*step + window_size]` for `step = window_size - overlap`
and every start `k*step` below the token count (so the window starts
advance by `step` until the tokens are exhausted, and the result is a
deterministic function of the input); every window's tail beyond its first
`step` tokens equals the next window's first `overlap` tokens, and that
shared segment has exactly `overlap` tokens whenever the window is full —
trailing windows, not only the final one, may be shorter. -/
theorem claim_C9_window_schedule (text : String) (size ov : Nat) (hov : ov < size) :
    ∃ N,
      chunk_text text size ov
          = (List.range N).map
              (fun k => String.intercalate " " (((pySplit text).drop (k * (size - ov))).take size))
      ∧ (∀ k, k < N → k * (size - ov) < (pySplit text).length)
      ∧ (pySplit text).length ≤ N * (size - ov)
      ∧ (∀ k : Nat, (((pySplit text).drop (k * (size - ov))).take size).drop (size - ov)
            = (((pySplit text).drop ((k + 1) * (size - ov))).take size).take ov)
      ∧ (∀ k : Nat, k * (size - ov) + size ≤ (pySplit text).length →
            ((((pySplit text).drop (k * (size - ov))).take size).drop (size - ov)).length = ov) := by
  have hbound : (pySplit text).length ≤ 0 + (size - ov) * (pySplit text).length := by
    have h1 : 1 * (pySplit text).length ≤ (size - ov) * (pySplit text).length :=
      Nat.mul_le_mul_right _ (by omega)
    simpa using h1
  obtain ⟨N, hEq, hlt, hge⟩ :=
    chunkLoop_closed (pySplit text) size ov (pySplit text).length 0 hbound
  refine ⟨N, ?_, ?_, ?_, ?_, ?_⟩
  · simp only [chunk_text]
    rw [hEq]
    simp
  · intro k hk
    simpa using hlt k hk
  · simpa using hge
  · intro k
    rw [window_overlap (pySplit text) size ov (le_of_lt hov) (k * (size - ov))]
    congr 2
    rw [Nat.succ_mul]
  · intro k hfull
    rw [window_overlap_length (pySplit text) size ov (k * (size - ov)) hfull]
    omega

/-- C9 witness: the window schedule instantiated on `"a b c d"` with
`window_size = 3`, `overlap = 2`. -/
theorem claim_C9_window_schedule_witness :
    2 < 3
    ∧ (∃ N,
        chunk_text "a b c d" 3 2
            = (List.range N).map
                (fun k => String.intercalate " " (((pySplit "a b c d").drop (k * (3 - 2))).take 3))
        ∧ (∀ k, k < N → k * (3 - 2) < (pySplit "a b c d").length)
        ∧ (pySplit "a b c d").length ≤ N * (3 - 2)
        ∧ (∀ k : Nat, (((pySplit "a b c d").drop (k * (3 - 2))).take 3).drop (3 - 2)
              = (((pySplit "a b c d").drop ((k + 1) * (3 - 2))).take 3).take 2)
        ∧ (∀ k : Nat, k * (3 - 2) + 3 ≤ (pySplit "a b c d").length →
              ((((pySplit "a b c d").drop (k * (3 - 2))).take 3).drop (3 - 2)).length = 2)) :=
  ⟨by decide, claim_C9_window_schedule "a b c d" 3 2 (by decide)⟩
